import Mathlib

/-!
Verification of the Repository / Unit-of-Work / Identity-Map data-access layer
(`src/main.py`).

Modelling choices:
* Python objects are mutually referential (a `UserEntity` holds its `CarEntity`s,
  each of which points back at the owner), so domain entities live in an explicit
  heap `EntHeap`; a reference (`URef`/`CRef`, a `Nat`) is the identity of an
  in-memory instance, and "reference equality" is equality of references.
* The persistence store (SQLAlchemy session + SQLite) is the external
  collaborator of spec §6; it is modelled as a `Session` holding the committed
  database and the pending (staged, uncommitted) rows, with `add`/`commit`/
  `rollback`/point-lookup/scan and uniqueness enforcement on identifiers.
* ORM model objects are modelled by the projections the mapper functions
  actually read: `UserModel` (row plus its related car rows) and `CarModel`
  (row plus, when the foreign key resolves, the owner row).
* Python exceptions become `Except Err`: `Err.duplicateKey` is the uniqueness
  violation surfaced by the store on commit (the spec's `DuplicateKeyError`),
  `Err.attributeError` is the `AttributeError` raised when a mapper
  dereferences a `None` owner (the failure spec §7 names `InvalidStateError`
  when it happens at `entityToRecord`).
-/

/-- Errors surfaced by the embedded operations. -/
inductive Err where
  /-- Identifier-uniqueness violation raised by the store at commit. -/
  | duplicateKey
  /-- Python `AttributeError`: a mapper dereferenced a `None` owner. -/
  | attributeError
deriving Repr, DecidableEq

/-- Reference to an in-memory `UserEntity` instance. -/
abbrev URef := Nat

/-- Reference to an in-memory `CarEntity` instance. -/
abbrev CRef := Nat

/-- In-memory `UserEntity` (`@dataclass UserEntity`): id, name, list of owned cars. -/
structure UserObj where
  id : String
  name : String
  cars : List CRef
deriving Repr, DecidableEq

/-- In-memory `CarEntity` (`@dataclass CarEntity`): id, brand, optional owner. -/
structure CarObj where
  id : String
  brand : String
  user : Option URef
deriving Repr, DecidableEq

/-- The Python object heap, restricted to the two entity types.
Fresh objects are allocated at `nextU`/`nextC`. -/
structure EntHeap where
  users : URef → Option UserObj
  nextU : Nat
  cars : CRef → Option CarObj
  nextC : Nat

def EntHeap.empty : EntHeap :=
  { users := fun _ => none, nextU := 0, cars := fun _ => none, nextC := 0 }

def EntHeap.allocUser (h : EntHeap) (u : UserObj) : URef × EntHeap :=
  (h.nextU,
   { h with users := fun r => if r = h.nextU then some u else h.users r,
            nextU := h.nextU + 1 })

def EntHeap.allocCar (h : EntHeap) (c : CarObj) : CRef × EntHeap :=
  (h.nextC,
   { h with cars := fun r => if r = h.nextC then some c else h.cars r,
            nextC := h.nextC + 1 })

/-- Mutation `user_entity.cars = …` on the object at `r`. -/
def EntHeap.setUserCars (h : EntHeap) (r : URef) (cs : List CRef) : EntHeap :=
  { h with users := fun x => if x = r then (h.users r).map (fun u => { u with cars := cs }) else h.users x }

/-- Mutation `car_entity.user = …` on the object at `r`. -/
def EntHeap.setCarUser (h : EntHeap) (r : CRef) (o : Option URef) : EntHeap :=
  { h with cars := fun x => if x = r then (h.cars r).map (fun c => { c with user := o }) else h.cars x }

/-- A persisted row of the `users` table. -/
structure UserRow where
  id : String
  name : String
deriving Repr, DecidableEq

/-- A persisted row of the car table (`user_id` is the nullable foreign key). -/
structure CarRow where
  id : String
  brand : String
  user_id : Option String
deriving Repr, DecidableEq

/-- Committed database state. -/
structure DB where
  users : List UserRow
  cars : List CarRow
deriving Repr, DecidableEq

/-- What `car_model_to_entity` reads from `car.user`: the owner row`s scalar fields. -/
structure UserModelParent where
  id : String
  name : String
deriving Repr, DecidableEq

/-- What `user_model_to_entity` reads from each element of `user.cars`. -/
structure CarModelChild where
  id : String
  brand : String
deriving Repr, DecidableEq

/-- The `UserModel` ORM object as consumed/produced by the mappers:
the user row plus its related car rows. -/
structure UserModel where
  id : String
  name : String
  cars : List CarModelChild
deriving Repr, DecidableEq

/-- The `CarModel` ORM object as consumed/produced by the mappers:
the car row plus the owner reached through the `user` relationship
(`none` when the foreign key is null or dangling). -/
structure CarModel where
  id : String
  brand : String
  user : Option UserModelParent
deriving Repr, DecidableEq

/-! ## The Mapper (`car_model_to_entity`, `car_entity_to_model`,
`user_model_to_entity`, `user_entity_to_model`) -/

/-- `car_model_to_entity`: allocates `CarEntity(id=car.id, brand=car.brand)`,
then executes `car_entity.user = UserEntity(id=car.user.id, name=car.user.name,
cars=[car_entity])`.  When `car.user` is `None`, `car.user.id` raises
`AttributeError`. -/
def car_model_to_entity (h : EntHeap) (car : CarModel) : Except Err (CRef × EntHeap) :=
  let p1 := h.allocCar { id := car.id, brand := car.brand, user := none }
  match car.user with
  | none => .error .attributeError
  | some owner =>
      let p2 := p1.2.allocUser { id := owner.id, name := owner.name, cars := [p1.1] }
      .ok (p1.1, p2.2.setCarUser p1.1 (some p2.1))

/-- `car_entity_to_model`: reads `car.id`, `car.brand`, `car.user.id`,
`car.user.name`; raises `AttributeError` when `car.user` is `None`. -/
def car_entity_to_model (h : EntHeap) (car : CRef) : Except Err CarModel :=
  match h.cars car with
  | none => .error .attributeError
  | some c =>
      match c.user with
      | none => .error .attributeError
      | some uref =>
          match h.users uref with
          | none => .error .attributeError
          | some u => .ok { id := c.id, brand := c.brand, user := some { id := u.id, name := u.name } }

/-- Allocates one `CarEntity(id=car.id, brand=car.brand, user=user_entity)` per
related car record, as the list comprehension in `user_model_to_entity` does. -/
def allocCarList (h : EntHeap) (owner : URef) : List CarModelChild → List CRef × EntHeap
  | [] => ([], h)
  | c :: rest =>
      let p := h.allocCar { id := c.id, brand := c.brand, user := some owner }
      let q := allocCarList p.2 owner rest
      (p.1 :: q.1, q.2)

/-- `user_model_to_entity`: allocates `UserEntity(id=user.id, name=user.name)`,
builds one car entity per related record (each pointing back at the user), then
mutates `user_entity.cars`. -/
def user_model_to_entity (h : EntHeap) (user : UserModel) : URef × EntHeap :=
  let p := h.allocUser { id := user.id, name := user.name, cars := [] }
  let q := allocCarList p.2 p.1 user.cars
  (p.1, q.2.setUserCars p.1 q.1)

/-- Reads `car.id`, `car.brand` for every car reference of an entity
(the list comprehension in `user_entity_to_model`); `none` only on a dangling
reference, which no real execution produces. -/
def carFields (h : EntHeap) : List CRef → Option (List CarModelChild)
  | [] => some []
  | r :: rest =>
      match h.cars r with
      | none => none
      | some c => (carFields h rest).map (fun cs => { id := c.id, brand := c.brand } :: cs)

/-- `user_entity_to_model`: builds `UserModel(id=user.id, name=user.name)` and one
`CarModel(id=car.id, brand=car.brand, user=user_model)` per owned car. -/
def user_entity_to_model (h : EntHeap) (user : URef) : Option UserModel :=
  match h.users user with
  | none => none
  | some u => (carFields h u.cars).map (fun cs => { id := u.id, name := u.name, cars := cs })

/-! ## The store session (external collaborator of spec §6)

A `Session` holds the committed database plus the rows staged by
`session.add` since the last commit.  `commit` enforces identifier
uniqueness (spec §6 item 7; SQLite primary keys), `rollback` discards the
staged rows, `close` releases the session.  A point lookup sees the
session's own staged rows first, then the committed table. -/

structure Session where
  db : DB
  newUsers : List UserRow
  newCars : List CarRow
  closed : Bool
deriving Repr, DecidableEq

/-- `true` iff the identifier list has no duplicate (uniqueness constraint). -/
def dupFree : List String → Bool
  | [] => true
  | x :: xs => decide (x ∉ xs) && dupFree xs

/-- `session.add(user_model)`: stages the user row and, by relationship
cascade, one car row per related `CarModel` (foreign key set to the user id). -/
def Session.addUserModel (s : Session) (m : UserModel) : Session :=
  { s with newUsers := s.newUsers ++ [{ id := m.id, name := m.name }],
           newCars := s.newCars ++ m.cars.map (fun c => { id := c.id, brand := c.brand, user_id := some m.id }) }

/-- `session.add(car_model)`: stages the car row and, by relationship cascade,
the attached owner `UserModel` when present. -/
def Session.addCarModel (s : Session) (m : CarModel) : Session :=
  { s with newCars := s.newCars ++ [{ id := m.id, brand := m.brand, user_id := m.user.map (fun u => u.id) }],
           newUsers := s.newUsers ++ (match m.user with
             | none => []
             | some u => [{ id := u.id, name := u.name }]) }

/-- The store's uniqueness check at flush time: every identifier of each table,
committed and staged together, must be distinct. -/
def canCommit (s : Session) : Bool :=
  dupFree ((s.db.users ++ s.newUsers).map (fun r => r.id)) &&
    dupFree ((s.db.cars ++ s.newCars).map (fun r => r.id))

/-- `session.commit()`: flushes the staged rows; fails with the store's
uniqueness violation (spec: `DuplicateKeyError`) when any identifier would be
duplicated, leaving the committed database unchanged. -/
def Session.commit (s : Session) : Except Err Session :=
  if canCommit s then
    .ok { s with db := { users := s.db.users ++ s.newUsers, cars := s.db.cars ++ s.newCars },
                 newUsers := [], newCars := [] }
  else
    .error .duplicateKey

/-- `session.rollback()`: discards all pending writes since the last commit. -/
def Session.rollback (s : Session) : Session :=
  { s with newUsers := [], newCars := [] }

/-- `session.close()`: releases the session. -/
def Session.close (s : Session) : Session :=
  { s with closed := true }

/-- First row of the `users` table with the given identifier. -/
def findUserRow : List UserRow → String → Option UserRow
  | [], _ => none
  | r :: rest, k => if r.id = k then some r else findUserRow rest k

/-- First row of the car table with the given identifier. -/
def findCarRow : List CarRow → String → Option CarRow
  | [], _ => none
  | r :: rest, k => if r.id = k then some r else findCarRow rest k

/-- Point lookup of a user row: the session sees its own staged rows first. -/
def Session.findUser (s : Session) (k : String) : Option UserRow :=
  match findUserRow s.newUsers k with
  | some r => some r
  | none => findUserRow s.db.users k

/-- Point lookup of a car row: the session sees its own staged rows first. -/
def Session.findCar (s : Session) (k : String) : Option CarRow :=
  match findCarRow s.newCars k with
  | some r => some r
  | none => findCarRow s.db.cars k

/-- `session.query(UserModel).get(id_)`: the user row together with the car
rows reached through the `cars` relationship (foreign key match). -/
def Session.getUserModel (s : Session) (k : String) : Option UserModel :=
  (s.findUser k).map (fun r =>
    { id := r.id, name := r.name,
      cars := ((s.db.cars ++ s.newCars).filter (fun c => c.user_id == some r.id)).map
        (fun c => { id := c.id, brand := c.brand }) })

/-- `session.query(CarModel).get(id_)`: the car row together with the owner row
reached through the `user` relationship (`none` when the foreign key is null). -/
def Session.getCarModel (s : Session) (k : String) : Option CarModel :=
  (s.findCar k).map (fun r =>
    { id := r.id, brand := r.brand,
      user := r.user_id.bind (fun uid => (s.findUser uid).map (fun u => { id := u.id, name := u.name })) })

/-- `session.query(CarModel).all()`: every car row, as a `CarModel` view. -/
def Session.allCarModels (s : Session) : List CarModel :=
  (s.db.cars ++ s.newCars).map (fun r =>
    { id := r.id, brand := r.brand,
      user := r.user_id.bind (fun uid => (s.findUser uid).map (fun u => { id := u.id, name := u.name })) })

/-! ## Repositories and the Unit of Work -/

/-- The state visible inside one Unit-of-Work scope: the process heap, the
scoped session, and the `UserRepository._identity_map` dictionary. -/
structure ScopeState where
  heap : EntHeap
  session : Session
  imap : String → Option URef

/-- `UserRepository.add`: puts the entity into the identity map, translates it,
stages it, and commits immediately. -/
def UserRepository.add (user : URef) (s : ScopeState) : Except Err Unit × ScopeState :=
  match s.heap.users user with
  | none => (.error .attributeError, s)
  | some u =>
      let s1 : ScopeState := { s with imap := fun k => if k = u.id then some user else s.imap k }
      match user_entity_to_model s1.heap user with
      | none => (.error .attributeError, s1)
      | some m =>
          let s2 : ScopeState := { s1 with session := s1.session.addUserModel m }
          match s2.session.commit with
          | .error e => (.error e, s2)
          | .ok sess => (.ok (), { s2 with session := sess })

/-- `UserRepository._get_user` composed with the query of `UserRepository.get`:
maps the row to a fresh entity, but returns (and keeps) the identity-mapped
instance when one exists for that identifier. -/
def UserRepository.get (k : String) (s : ScopeState) : Option URef × ScopeState :=
  match s.session.getUserModel k with
  | none => (none, s)
  | some m =>
      let p := user_model_to_entity s.heap m
      match p.2.users p.1 with
      | none => (none, { s with heap := p.2 })
      | some ent =>
          match s.imap ent.id with
          | some cached => (some cached, { s with heap := p.2 })
          | none =>
              (some p.1,
               { s with heap := p.2,
                        imap := fun x => if x = ent.id then some p.1 else s.imap x })

/-- `CarRepository.add`: translates the entity, stages it, commits. -/
def CarRepository.add (car : CRef) (s : ScopeState) : Except Err Unit × ScopeState :=
  match car_entity_to_model s.heap car with
  | .error e => (.error e, s)
  | .ok m =>
      let s1 : ScopeState := { s with session := s.session.addCarModel m }
      match s1.session.commit with
      | .error e => (.error e, s1)
      | .ok sess => (.ok (), { s1 with session := sess })

/-- `CarRepository.get`: point lookup, then `car_model_to_entity`. -/
def CarRepository.get (k : String) (s : ScopeState) : Except Err (Option CRef) × ScopeState :=
  match s.session.getCarModel k with
  | none => (.ok none, s)
  | some m =>
      match car_model_to_entity s.heap m with
      | .error e => (.error e, s)
      | .ok p => (.ok (some p.1), { s with heap := p.2 })

/-- The list comprehension of `CarRepository.list`: maps every `CarModel` view
through `car_model_to_entity`, threading the heap; the first `AttributeError`
aborts the whole call. -/
def carEntitiesOf (h : EntHeap) : List CarModel → Except Err (List CRef × EntHeap)
  | [] => .ok ([], h)
  | m :: rest =>
      match car_model_to_entity h m with
      | .error e => .error e
      | .ok p =>
          match carEntitiesOf p.2 rest with
          | .error e => .error e
          | .ok q => .ok (p.1 :: q.1, q.2)

/-- `CarRepository.list`: full scan, each row translated. -/
def CarRepository.list (s : ScopeState) : Except Err (List CRef) × ScopeState :=
  match carEntitiesOf s.heap s.session.allCarModels with
  | .error e => (.error e, s)
  | .ok p => (.ok p.1, { s with heap := p.2 })

/-- The world outside any Unit-of-Work scope: the process heap and the
committed database. -/
structure World where
  heap : EntHeap
  db : DB

/-- `MainUnitOfWork.__enter__`: fresh session over the current database, fresh
repositories, hence a fresh (empty) identity map. -/
def beginScope (w : World) : ScopeState :=
  { heap := w.heap,
    session := { db := w.db, newUsers := [], newCars := [], closed := false },
    imap := fun _ => none }

/-- `MainUnitOfWork.commit`. -/
def MainUnitOfWork.commit (s : ScopeState) : Except Err Unit × ScopeState :=
  match s.session.commit with
  | .error e => (.error e, s)
  | .ok sess => (.ok (), { s with session := sess })

/-- `MainUnitOfWork.rollback`. -/
def MainUnitOfWork.rollback (s : ScopeState) : ScopeState :=
  { s with session := s.session.rollback }

/-- `MainUnitOfWork.__exit__`: unconditionally `rollback()` (via
`AbstractUnitOfWork.__exit__`), then `session.close()`.  Returns the world
after the scope and the released session. -/
def exitScope (s : ScopeState) : World × Session :=
  let sess1 := s.session.rollback
  let sess2 := sess1.close
  ({ heap := s.heap, db := sess2.db }, sess2)

/-- A `with main_uow:` block: enter, run the body (which either returns a value
or raises), then run `__exit__` on every path. -/
def runScope {α : Type} (w : World) (body : ScopeState → Except Err α × ScopeState) :
    Except Err α × (World × Session) :=
  ((body (beginScope w)).1, exitScope (body (beginScope w)).2)

/-! ## Concrete fixtures used by witnesses and counterexamples -/

/-- An empty database, shared by the concrete witness scenarios. -/
def emptyDB : DB := { users := [], cars := [] }

/-- A heap holding a single ownerless `CarEntity` at reference 0. -/
def orphanCarHeap : EntHeap :=
  (EntHeap.empty.allocCar { id := "car1", brand := "Audi", user := none }).2

/-- A fresh scope over an empty store whose heap holds the ownerless car. -/
def orphanCarScope : ScopeState := beginScope { heap := orphanCarHeap, db := emptyDB }

/-- A fresh scope over an empty store and an empty heap. -/
def emptyScope : ScopeState := beginScope { heap := EntHeap.empty, db := emptyDB }

/-- A heap holding one `UserEntity("user1", "John")` with no cars, at
reference 0. -/
def johnHeap : EntHeap :=
  (EntHeap.empty.allocUser { id := "user1", name := "John", cars := [] }).2

/-- A fresh scope over an empty store with `johnHeap`. -/
def johnScope : ScopeState := beginScope { heap := johnHeap, db := emptyDB }

/-- The record `user_entity_to_model` produces for the entity of `johnHeap`. -/
def johnModel : UserModel := { id := "user1", name := "John", cars := [] }

/-- A store that already holds a committed row with identifier `"user1"`. -/
def dupDB : DB := { users := [{ id := "user1", name := "Stored" }], cars := [] }

/-- A fresh scope over `dupDB` with `johnHeap`. -/
def dupScope : ScopeState := beginScope { heap := johnHeap, db := dupDB }

/-- A heap holding two distinct `UserEntity` instances that share the
identifier `"user1"`: `John` at reference 0 and `Johnny` at reference 1. -/
def twoJohnHeap : EntHeap :=
  ((EntHeap.empty.allocUser { id := "user1", name := "John", cars := [] }).2.allocUser
    { id := "user1", name := "Johnny", cars := [] }).2

/-- A fresh scope over an empty store with `twoJohnHeap`. -/
def twoJohnScope : ScopeState := beginScope { heap := twoJohnHeap, db := emptyDB }

/-- The record `user_entity_to_model` produces for the second entity. -/
def johnnyModel : UserModel := { id := "user1", name := "Johnny", cars := [] }

/-- The scenario of claim C2: inside one scope, `users.add` the entity at
`uref`, call `rollback()`, leave the scope; then open a new scope and
`users.get k`. -/
def rollbackScenario (w : World) (uref : URef) (k : String) : Option URef × ScopeState :=
  let s1 := (UserRepository.add uref (beginScope w)).2
  let s2 := MainUnitOfWork.rollback s1
  let w2 := (exitScope s2).1
  UserRepository.get k (beginScope w2)

/-- The world of the C2 scenario: `John` at reference 0, empty store. -/
def johnWorld : World := { heap := johnHeap, db := emptyDB }

/-- A store holding exactly one car row, with a null owner foreign key. -/
def orphanDB : DB := { users := [], cars := [{ id := "car1", brand := "Audi", user_id := none }] }

/-- A fresh scope over `orphanDB`. -/
def orphanRowScope : ScopeState := beginScope { heap := EntHeap.empty, db := orphanDB }

/-- A heap holding `CarEntity("car1", "Audi")` at car-reference 0 owned by
`UserEntity("user1", "John")` at user-reference 0, whose car list is `[0]`. -/
def johnWithCarHeap : EntHeap :=
  ((EntHeap.empty.allocCar { id := "car1", brand := "Audi", user := some 0 }).2.allocUser
    { id := "user1", name := "John", cars := [0] }).2

/-- The record `user_entity_to_model` produces for the user of `johnWithCarHeap`. -/
def johnCarModel : UserModel :=
  { id := "user1", name := "John", cars := [{ id := "car1", brand := "Audi" }] }

/-! ## Helper lemmas -/

lemma findUserRow_id {rows : List UserRow} {k : String} {r : UserRow}
    (h : findUserRow rows k = some r) : r.id = k := by
  induction rows with
  | nil => simp [findUserRow] at h
  | cons x xs ih =>
      by_cases hx : x.id = k
      · simp [findUserRow, hx] at h
        rw [← h, hx]
      · simp [findUserRow, hx] at h
        exact ih h

lemma findUserRow_exists {rows : List UserRow} {k : String}
    (h : ∃ r ∈ rows, r.id = k) : ∃ r, findUserRow rows k = some r ∧ r.id = k := by
  induction rows with
  | nil => simp at h
  | cons x xs ih =>
      by_cases hx : x.id = k
      · exact ⟨x, by simp [findUserRow, hx], hx⟩
      · obtain ⟨r, hr, hrk⟩ := h
        rcases List.mem_cons.mp hr with h1 | h1
        · exact absurd (h1 ▸ hrk) hx
        · obtain ⟨r2, hfind, hid⟩ := ih ⟨r, h1, hrk⟩
          exact ⟨r2, by simp [findUserRow, hx, hfind], hid⟩

lemma findUserRow_none {rows : List UserRow} {k : String}
    (h : ∀ r ∈ rows, r.id ≠ k) : findUserRow rows k = none := by
  induction rows with
  | nil => simp [findUserRow]
  | cons x xs ih =>
      simp only [findUserRow, if_neg (h x (by simp))]
      exact ih (fun r hr => h r (by simp [hr]))

lemma findUserRow_append_of_none {l1 l2 : List UserRow} {k : String}
    (h : ∀ r ∈ l1, r.id ≠ k) : findUserRow (l1 ++ l2) k = findUserRow l2 k := by
  induction l1 with
  | nil => simp
  | cons x xs ih =>
      simp only [List.cons_append, findUserRow, if_neg (h x (by simp))]
      exact ih (fun r hr => h r (by simp [hr]))

lemma findCarRow_mem {rows : List CarRow} {k : String} {r : CarRow}
    (h : findCarRow rows k = some r) : r ∈ rows := by
  induction rows with
  | nil => simp [findCarRow] at h
  | cons x xs ih =>
      by_cases hx : x.id = k
      · simp [findCarRow, hx] at h
        simp [← h]
      · simp [findCarRow, hx] at h
        exact List.mem_cons_of_mem _ (ih h)

lemma dupFree_false_of_mem {a : String} {l1 l2 : List String}
    (h : a ∈ l1) : dupFree (l1 ++ l2 ++ [a]) = false := by
  induction l1 with
  | nil => simp at h
  | cons x xs ih =>
      rcases List.mem_cons.mp h with h1 | h1
      · have hx : x ∈ xs ++ l2 ++ [a] := by simp [h1]
        show (decide (x ∉ xs ++ l2 ++ [a]) && dupFree (xs ++ l2 ++ [a])) = false
        rw [decide_eq_false (not_not_intro hx), Bool.false_and]
      · show (decide (x ∉ xs ++ l2 ++ [a]) && dupFree (xs ++ l2 ++ [a])) = false
        rw [ih h1, Bool.and_false]

lemma user_entity_to_model_fields {h : EntHeap} {uref : URef} {u : UserObj} {m : UserModel}
    (h1 : h.users uref = some u) (h2 : user_entity_to_model h uref = some m) :
    m.id = u.id ∧ m.name = u.name ∧ carFields h u.cars = some m.cars := by
  simp only [user_entity_to_model, h1, Option.map_eq_some'] at h2
  obtain ⟨cs, hcs, hm⟩ := h2
  subst hm
  exact ⟨rfl, rfl, hcs⟩

lemma carFields_snapshot {h : EntHeap} : ∀ {crs : List CRef} {cs : List CarModelChild},
    carFields h crs = some cs →
    crs.map (fun r => (h.cars r).map (fun c => (c.id, c.brand)))
      = cs.map (fun c => some (c.id, c.brand)) := by
  intro crs
  induction crs with
  | nil => intro cs hcs; simp [carFields] at hcs; simp [← hcs]
  | cons r rest ih =>
      intro cs hcs
      simp only [carFields] at hcs
      cases hr : h.cars r with
      | none => rw [hr] at hcs; simp at hcs
      | some c =>
          rw [hr] at hcs
          cases hrest : carFields h rest with
          | none => rw [hrest] at hcs; simp at hcs
          | some cs2 =>
              rw [hrest] at hcs
              simp only [Option.map_some] at hcs
              cases hcs
              simp [hr, ih hrest]

lemma allocCarList_users : ∀ (cs : List CarModelChild) (h : EntHeap) (o : URef),
    (allocCarList h o cs).2.users = h.users := by
  intro cs
  induction cs with
  | nil => intro h o; rfl
  | cons c rest ih =>
      intro h o
      simp only [allocCarList]
      rw [ih]
      rfl

lemma allocCarList_nextU : ∀ (cs : List CarModelChild) (h : EntHeap) (o : URef),
    (allocCarList h o cs).2.nextU = h.nextU := by
  intro cs
  induction cs with
  | nil => intro h o; rfl
  | cons c rest ih =>
      intro h o
      simp only [allocCarList]
      rw [ih]
      rfl

lemma allocCarList_nextC : ∀ (cs : List CarModelChild) (h : EntHeap) (o : URef),
    h.nextC ≤ (allocCarList h o cs).2.nextC := by
  intro cs
  induction cs with
  | nil => intro h o; exact Nat.le_refl _
  | cons c rest ih =>
      intro h o
      simp only [allocCarList]
      exact Nat.le_trans (by simp [EntHeap.allocCar]) (ih _ o)

lemma allocCarList_cars_lt : ∀ (cs : List CarModelChild) (h : EntHeap) (o : URef) (x : CRef),
    x < h.nextC → (allocCarList h o cs).2.cars x = h.cars x := by
  intro cs
  induction cs with
  | nil => intro h o x _; rfl
  | cons c rest ih =>
      intro h o x hx
      simp only [allocCarList]
      rw [ih _ o x (Nat.lt_trans hx (Nat.lt_succ_self _))]
      simp only [EntHeap.allocCar]
      rw [if_neg (Nat.ne_of_lt hx)]

lemma allocCarList_lookup_list : ∀ (cs : List CarModelChild) (h : EntHeap) (o : URef),
    ((allocCarList h o cs).1).map (fun r => (allocCarList h o cs).2.cars r)
      = cs.map (fun c => some { id := c.id, brand := c.brand, user := some o }) := by
  intro cs
  induction cs with
  | nil => intro h o; rfl
  | cons c rest ih =>
      intro h o
      simp only [allocCarList, List.map_cons, List.cons.injEq]
      refine ⟨?_, ih _ o⟩
      rw [allocCarList_cars_lt rest _ o _ (by simp [EntHeap.allocCar])]
      simp [EntHeap.allocCar]

lemma allocCarList_mem : ∀ (cs : List CarModelChild) (h : EntHeap) (o : URef) (r : CRef),
    r ∈ (allocCarList h o cs).1 →
    ∃ c ∈ cs, (allocCarList h o cs).2.cars r
      = some { id := c.id, brand := c.brand, user := some o } := by
  intro cs
  induction cs with
  | nil => intro h o r hr; simp [allocCarList] at hr
  | cons c rest ih =>
      intro h o r hr
      simp only [allocCarList, List.mem_cons] at hr
      rcases hr with hr | hr
      · refine ⟨c, by simp, ?_⟩
        simp only [allocCarList, hr]
        rw [allocCarList_cars_lt rest _ o _ (by simp [EntHeap.allocCar])]
        simp [EntHeap.allocCar]
      · obtain ⟨c2, hc2, hl⟩ := ih _ o r hr
        exact ⟨c2, by simp [hc2], by simp only [allocCarList]; exact hl⟩

lemma user_model_to_entity_users_self (h : EntHeap) (m : UserModel) :
    ((user_model_to_entity h m).2).users (user_model_to_entity h m).1
      = some { id := m.id, name := m.name,
               cars := (allocCarList ((h.allocUser { id := m.id, name := m.name, cars := [] }).2)
                 h.nextU m.cars).1 } := by
  simp only [user_model_to_entity, EntHeap.setUserCars]
  rw [allocCarList_users]
  simp [EntHeap.allocUser]

lemma user_model_to_entity_cars (h : EntHeap) (m : UserModel) :
    ((user_model_to_entity h m).2).cars
      = (allocCarList ((h.allocUser { id := m.id, name := m.name, cars := [] }).2)
          h.nextU m.cars).2.cars := by
  simp only [user_model_to_entity, EntHeap.setUserCars]
  rfl

lemma commit_of_canCommit {s : Session} (h : canCommit s = true) :
    Session.commit s = .ok { s with db := { users := s.db.users ++ s.newUsers,
                                            cars := s.db.cars ++ s.newCars },
                                    newUsers := [], newCars := [] } := by
  simp [Session.commit, h]

lemma commit_of_not_canCommit {s : Session} (h : canCommit s = false) :
    Session.commit s = .error .duplicateKey := by
  simp [Session.commit, h]

lemma findUser_id {s : Session} {k : String} {r : UserRow}
    (h : s.findUser k = some r) : r.id = k := by
  unfold Session.findUser at h
  cases hn : findUserRow s.newUsers k with
  | some r2 => rw [hn] at h; cases h; exact findUserRow_id hn
  | none => rw [hn] at h; exact findUserRow_id h

lemma findUser_exists {s : Session} {k : String}
    (h : (∃ r ∈ s.newUsers, r.id = k) ∨ (∃ r ∈ s.db.users, r.id = k)) :
    ∃ r, s.findUser k = some r := by
  unfold Session.findUser
  rcases h with h | h
  · obtain ⟨r, hr, _⟩ := findUserRow_exists h
    exact ⟨r, by rw [hr]⟩
  · cases hn : findUserRow s.newUsers k with
    | some r2 => exact ⟨r2, rfl⟩
    | none =>
        obtain ⟨r, hr, _⟩ := findUserRow_exists h
        exact ⟨r, by rw [hr]⟩

/-- When the identifier is already in the identity map and the store query
finds a row for it, `UserRepository.get` returns the mapped instance and
leaves both the identity map and the session untouched (only the heap grows,
by the discarded freshly-mapped entity). -/
lemma userRepository_get_cached (s : ScopeState) (k : String) (uref : URef)
    (h1 : s.imap k = some uref)
    (h2 : ∃ r, s.session.findUser k = some r) :
    (UserRepository.get k s).1 = some uref ∧
    ((UserRepository.get k s).2).imap = s.imap ∧
    ((UserRepository.get k s).2).session = s.session := by
  obtain ⟨r, hr⟩ := h2
  have hid : r.id = k := findUser_id hr
  have hgm : s.session.getUserModel k = some
      { id := r.id, name := r.name,
        cars := ((s.session.db.cars ++ s.session.newCars).filter
          (fun c => c.user_id == some r.id)).map (fun c => { id := c.id, brand := c.brand }) } := by
    simp [Session.getUserModel, hr]
  simp only [UserRepository.get, hgm, user_model_to_entity_users_self, hid, h1]
  refine ⟨?_, ?_, ?_⟩ <;> trivial

/-- Running `UserRepository.add` when the staged session can commit: the row
(and its car rows) are committed, the pending sets are cleared, and the
identity map holds the added entity. -/
lemma userRepository_add_ok
    (s : ScopeState) (uref : URef) (u : UserObj) (m : UserModel)
    (h1 : s.heap.users uref = some u)
    (h2 : user_entity_to_model s.heap uref = some m)
    (h3 : canCommit (s.session.addUserModel m) = true) :
    UserRepository.add uref s = (Except.ok (),
      { heap := s.heap,
        session := { db := { users := s.session.db.users ++ (s.session.newUsers ++ [{ id := m.id, name := m.name }]),
                             cars := s.session.db.cars ++ (s.session.newCars ++ m.cars.map (fun c => { id := c.id, brand := c.brand, user_id := some m.id })) },
                     newUsers := [], newCars := [], closed := s.session.closed },
        imap := fun k => if k = u.id then some uref else s.imap k }) := by
  simp only [UserRepository.add, h1, h2, commit_of_canCommit h3]
  simp [Session.addUserModel]

/-- Running `UserRepository.add` when a committed row already bears the
entity's identifier: the commit fails with the duplicate-key error, the
committed database is untouched, the staged rows remain pending, and the
identity map nevertheless holds the entity. -/
lemma userRepository_add_dup
    (s : ScopeState) (uref : URef) (u : UserObj) (m : UserModel)
    (h1 : s.heap.users uref = some u)
    (h2 : user_entity_to_model s.heap uref = some m)
    (h3 : ∃ r ∈ s.session.db.users, r.id = u.id) :
    UserRepository.add uref s = (Except.error Err.duplicateKey,
      { heap := s.heap,
        session := s.session.addUserModel m,
        imap := fun k => if k = u.id then some uref else s.imap k }) := by
  obtain ⟨hid, hname, hcf⟩ := user_entity_to_model_fields h1 h2
  obtain ⟨r, hr, hrid⟩ := h3
  have hmem : u.id ∈ s.session.db.users.map (fun x : UserRow => x.id) := by
    rw [← hrid]; exact List.mem_map_of_mem _ hr
  have hdup : dupFree ((s.session.db.users ++ (s.session.newUsers ++ [({ id := m.id, name := m.name } : UserRow)])).map (fun x : UserRow => x.id)) = false := by
    rw [List.map_append, List.map_append, ← List.append_assoc]
    have hone : ([({ id := m.id, name := m.name } : UserRow)]).map (fun x : UserRow => x.id) = [u.id] := by
      simp [hid]
    rw [hone]
    exact dupFree_false_of_mem hmem
  have hfail : canCommit (s.session.addUserModel m) = false := by
    simp only [canCommit, Session.addUserModel]
    rw [hdup, Bool.false_and]
  simp only [UserRepository.add, h1, h2, commit_of_not_canCommit hfail]

/-! ## Claim theorems -/

/-- C6: on every exit path of a Unit-of-Work scope — the body is an arbitrary
computation, so in particular one that raises (`Except.error`) — `__exit__`
first invokes `rollback()` and then releases (`close`s) the session: the
released session has an empty pending-write set and is closed, and the
database that survives the scope is exactly the committed database after the
body, so pending work never persists without an explicit `commit()`. -/
theorem scope_exit_rolls_back_then_releases {α : Type} (w : World)
    (body : ScopeState → Except Err α × ScopeState) :
    (runScope w body).2.1.db = ((body (beginScope w)).2).session.db ∧
    (runScope w body).2.2.db = ((body (beginScope w)).2).session.db ∧
    (runScope w body).2.2.newUsers = [] ∧
    (runScope w body).2.2.newCars = [] ∧
    (runScope w body).2.2.closed = true :=
  ⟨rfl, rfl, rfl, rfl, rfl⟩

/-- C3: a `CarEntity` whose owner reference is `None` cannot be translated:
`car_entity_to_model` fails by dereferencing the absent owner (the failure the
spec calls `InvalidStateError`), and consequently `cars.add` fails the same
way and leaves the whole scope state — in particular the store — untouched. -/
theorem car_without_owner_add_fails
    (s : ScopeState) (cref : CRef) (c : CarObj)
    (h1 : s.heap.cars cref = some c)
    (h2 : c.user = none) :
    car_entity_to_model s.heap cref = .error .attributeError ∧
    CarRepository.add cref s = (.error .attributeError, s) ∧
    ((CarRepository.add cref s).2).session.db = s.session.db := by
  have hmap : car_entity_to_model s.heap cref = .error .attributeError := by
    simp [car_entity_to_model, h1, h2]
  refine ⟨hmap, ?_, ?_⟩ <;> simp [CarRepository.add, hmap]

/-- Witness for C3: a heap holding one ownerless car at reference 0, inside a
fresh scope over an empty database. -/
theorem car_without_owner_add_fails_witness :
    orphanCarScope.heap.cars 0 = some { id := "car1", brand := "Audi", user := none } ∧
    (CarRepository.add 0 orphanCarScope).1 = .error .attributeError :=
  ⟨by decide,
   by
    have h := car_without_owner_add_fails orphanCarScope 0
      { id := "car1", brand := "Audi", user := none } (by decide) (by decide)
    rw [h.2.1]⟩

/-- C7: loading a car record that has an owner builds a `CarEntity` whose
owner is a freshly built minimal `UserEntity` whose car collection is exactly
the one loaded car (the same in-memory instance), not the owner's full list. -/
theorem car_load_builds_minimal_owner
    (h : EntHeap) (cm : CarModel) (up : UserModelParent)
    (h1 : cm.user = some up) :
    ∃ cref uref h2, car_model_to_entity h cm = .ok (cref, h2) ∧
      h2.cars cref = some { id := cm.id, brand := cm.brand, user := some uref } ∧
      h2.users uref = some { id := up.id, name := up.name, cars := [cref] } := by
  have step : car_model_to_entity h cm =
      .ok (h.nextC,
        (((h.allocCar { id := cm.id, brand := cm.brand, user := none }).2.allocUser
          { id := up.id, name := up.name, cars := [h.nextC] }).2).setCarUser h.nextC (some h.nextU)) := by
    simp only [car_model_to_entity, h1]
    rfl
  refine ⟨h.nextC, h.nextU, _, step, ?_, ?_⟩
  · simp [EntHeap.setCarUser, EntHeap.allocUser, EntHeap.allocCar]
  · simp [EntHeap.setCarUser, EntHeap.allocUser, EntHeap.allocCar]

/-- Witness for C7: a concrete car record with owner `"user1"/"John"` on the
empty heap. -/
theorem car_load_builds_minimal_owner_witness :
    ({ id := "car1", brand := "Audi", user := some { id := "user1", name := "John" } } : CarModel).user
        = some { id := "user1", name := "John" } ∧
    ∃ cref uref h2,
      car_model_to_entity EntHeap.empty
          { id := "car1", brand := "Audi", user := some { id := "user1", name := "John" } }
        = .ok (cref, h2) ∧
      h2.cars cref = some { id := "car1", brand := "Audi", user := some uref } ∧
      h2.users uref = some { id := "user1", name := "John", cars := [cref] } :=
  ⟨rfl, car_load_builds_minimal_owner EntHeap.empty
    { id := "car1", brand := "Audi", user := some { id := "user1", name := "John" } }
    { id := "user1", name := "John" } rfl⟩

/-- C8: when no row with identifier `k` exists in the store (neither committed
nor staged), `users.get k` returns `none` and leaves the scope state — heap,
session and identity map — exactly as it was, so a second `get k` in the same
scope issues the query again instead of answering from a cached absence. -/
theorem get_absent_id_no_negative_caching
    (s : ScopeState) (k : String)
    (h1 : ∀ r ∈ s.session.newUsers, r.id ≠ k)
    (h2 : ∀ r ∈ s.session.db.users, r.id ≠ k) :
    UserRepository.get k s = (none, s) ∧
    (UserRepository.get k ((UserRepository.get k s).2)).1 = none := by
  have hfind : s.session.findUser k = none := by
    unfold Session.findUser
    rw [findUserRow_none h1, findUserRow_none h2]
  have hgm : s.session.getUserModel k = none := by
    simp [Session.getUserModel, hfind]
  have hget : UserRepository.get k s = (none, s) := by
    simp [UserRepository.get, hgm]
  exact ⟨hget, by rw [hget, hget]⟩

/-- Witness for C8: identifier `"ghost"` over a scope whose store is empty. -/
theorem get_absent_id_no_negative_caching_witness :
    (∀ r ∈ emptyScope.session.newUsers, r.id ≠ "ghost") ∧
    (∀ r ∈ emptyScope.session.db.users, r.id ≠ "ghost") ∧
    (UserRepository.get "ghost" emptyScope).1 = none :=
  ⟨by decide, by decide,
   by
    have h := get_absent_id_no_negative_caching emptyScope "ghost" (by decide) (by decide)
    rw [h.1]⟩

/-- C1: after a successful `users.add` of the entity at reference `uref`, two
consecutive `users.get` calls for its identifier in the same scope both return
`uref` — the very instance that was added, resolved through the identity map —
and hence return the same in-memory instance, not merely equal values. -/
theorem users_get_same_instance_after_add
    (s : ScopeState) (uref : URef) (u : UserObj) (m : UserModel)
    (h1 : s.heap.users uref = some u)
    (h2 : user_entity_to_model s.heap uref = some m)
    (h3 : canCommit (s.session.addUserModel m) = true) :
    (UserRepository.add uref s).1 = .ok () ∧
    (UserRepository.get u.id (UserRepository.add uref s).2).1 = some uref ∧
    (UserRepository.get u.id ((UserRepository.get u.id (UserRepository.add uref s).2).2)).1 = some uref := by
  obtain ⟨hid, hname, hcf⟩ := user_entity_to_model_fields h1 h2
  have key := userRepository_add_ok s uref u m h1 h2 h3
  have h4 : ((UserRepository.add uref s).2).imap u.id = some uref := by
    rw [key]; simp
  have h5 : ∃ r ∈ ((UserRepository.add uref s).2).session.db.users, r.id = u.id := by
    rw [key]
    exact ⟨{ id := m.id, name := m.name }, by simp, hid⟩
  have h6 : ∃ r, ((UserRepository.add uref s).2).session.findUser u.id = some r :=
    findUser_exists (Or.inr h5)
  have hc := userRepository_get_cached ((UserRepository.add uref s).2) u.id uref h4 h6
  have h7 : ((UserRepository.get u.id ((UserRepository.add uref s).2)).2).imap u.id = some uref := by
    rw [hc.2.1]; exact h4
  have h8 : ∃ r, ((UserRepository.get u.id ((UserRepository.add uref s).2)).2).session.findUser u.id = some r := by
    rw [hc.2.2]; exact h6
  have hc2 := userRepository_get_cached _ u.id uref h7 h8
  exact ⟨by rw [key], hc.1, hc2.1⟩

/-- Witness for C1: adding `user1/John` to an empty store, then getting it
twice, returns reference 0 both times. -/
theorem users_get_same_instance_after_add_witness :
    johnScope.heap.users 0 = some { id := "user1", name := "John", cars := [] } ∧
    user_entity_to_model johnScope.heap 0 = some johnModel ∧
    canCommit (johnScope.session.addUserModel johnModel) = true ∧
    (UserRepository.get "user1" (UserRepository.add 0 johnScope).2).1 = some 0 ∧
    (UserRepository.get "user1" ((UserRepository.get "user1" (UserRepository.add 0 johnScope).2).2)).1 = some 0 := by
  have h := users_get_same_instance_after_add johnScope 0
    { id := "user1", name := "John", cars := [] } johnModel (by decide) (by decide) (by decide)
  exact ⟨by decide, by decide, by decide, h.2.1, h.2.2⟩

/-- C9: `UserRepository.add` inserts the entity into the identity map before
the store write and commit, so when the commit fails on a duplicate
identifier the store is unchanged, yet the identity map still holds the
non-persisted entity, and a subsequent `users.get` for that identifier in the
same scope returns that entity rather than one loaded from the stored row. -/
theorem add_failure_still_populates_identity_map
    (s : ScopeState) (uref : URef) (u : UserObj) (m : UserModel)
    (h1 : s.heap.users uref = some u)
    (h2 : user_entity_to_model s.heap uref = some m)
    (h3 : ∃ r ∈ s.session.db.users, r.id = u.id) :
    (UserRepository.add uref s).1 = .error .duplicateKey ∧
    ((UserRepository.add uref s).2).session.db = s.session.db ∧
    ((UserRepository.add uref s).2).imap u.id = some uref ∧
    (UserRepository.get u.id (UserRepository.add uref s).2).1 = some uref := by
  obtain ⟨hid, hname, hcf⟩ := user_entity_to_model_fields h1 h2
  have key := userRepository_add_dup s uref u m h1 h2 h3
  have h4 : ((UserRepository.add uref s).2).imap u.id = some uref := by
    rw [key]; simp
  have h5 : ∃ rr ∈ ((UserRepository.add uref s).2).session.newUsers, rr.id = u.id := by
    rw [key]
    exact ⟨{ id := m.id, name := m.name }, by simp [Session.addUserModel], hid⟩
  have h6 : ∃ rr, ((UserRepository.add uref s).2).session.findUser u.id = some rr :=
    findUser_exists (Or.inl h5)
  have hc := userRepository_get_cached ((UserRepository.add uref s).2) u.id uref h4 h6
  exact ⟨by rw [key], by rw [key]; simp [Session.addUserModel], h4, hc.1⟩

/-- Witness for C9: adding a second `"user1"` entity fails with the duplicate
key error, leaves the store unchanged, and `users.get "user1"` afterwards
returns the non-persisted entity at reference 0. -/
theorem add_failure_still_populates_identity_map_witness :
    dupScope.heap.users 0 = some { id := "user1", name := "John", cars := [] } ∧
    user_entity_to_model dupScope.heap 0 = some johnModel ∧
    (∃ r ∈ dupScope.session.db.users, r.id = "user1") ∧
    (UserRepository.add 0 dupScope).1 = .error .duplicateKey ∧
    (UserRepository.get "user1" (UserRepository.add 0 dupScope).2).1 = some 0 := by
  have h := add_failure_still_populates_identity_map dupScope 0
    { id := "user1", name := "John", cars := [] } johnModel (by decide) (by decide) (by decide)
  exact ⟨by decide, by decide, by decide, h.1, h.2.2.2⟩

/-- C4: adding two entities bearing the same identifier in one scope succeeds
the first time and raises the duplicate-key error (the spec's
`DuplicateKeyError`) on the second `add`; the committed store after the failed
second call is exactly the store after the first, so no partial record of the
second entity is left behind. -/
theorem add_twice_same_id_raises_duplicate_key
    (s : ScopeState) (r1 r2 : URef) (u1 u2 : UserObj) (m1 m2 : UserModel)
    (h1 : s.heap.users r1 = some u1)
    (h2 : user_entity_to_model s.heap r1 = some m1)
    (h3 : canCommit (s.session.addUserModel m1) = true)
    (h4 : s.heap.users r2 = some u2)
    (h5 : user_entity_to_model s.heap r2 = some m2)
    (h6 : u2.id = u1.id) :
    (UserRepository.add r1 s).1 = .ok () ∧
    (UserRepository.add r2 (UserRepository.add r1 s).2).1 = .error .duplicateKey ∧
    ((UserRepository.add r2 (UserRepository.add r1 s).2).2).session.db
      = ((UserRepository.add r1 s).2).session.db := by
  obtain ⟨hid1, hname1, hcf1⟩ := user_entity_to_model_fields h1 h2
  have key1 := userRepository_add_ok s r1 u1 m1 h1 h2 h3
  have hheap : ((UserRepository.add r1 s).2).heap = s.heap := by rw [key1]
  have hex : ∃ r ∈ ((UserRepository.add r1 s).2).session.db.users, r.id = u2.id := by
    rw [key1]
    exact ⟨{ id := m1.id, name := m1.name }, by simp, hid1.trans h6.symm⟩
  have key2 := userRepository_add_dup ((UserRepository.add r1 s).2) r2 u2 m2
    (by rw [hheap]; exact h4) (by rw [hheap]; exact h5) hex
  exact ⟨by rw [key1], by rw [key2], by rw [key2]; simp [Session.addUserModel]⟩

/-- Witness for C4: adding `John` then `Johnny`, both with identifier
`"user1"`, to an empty store. -/
theorem add_twice_same_id_raises_duplicate_key_witness :
    twoJohnScope.heap.users 0 = some { id := "user1", name := "John", cars := [] } ∧
    user_entity_to_model twoJohnScope.heap 0 = some johnModel ∧
    canCommit (twoJohnScope.session.addUserModel johnModel) = true ∧
    twoJohnScope.heap.users 1 = some { id := "user1", name := "Johnny", cars := [] } ∧
    user_entity_to_model twoJohnScope.heap 1 = some johnnyModel ∧
    (UserRepository.add 0 twoJohnScope).1 = .ok () ∧
    (UserRepository.add 1 (UserRepository.add 0 twoJohnScope).2).1 = .error .duplicateKey := by
  have h := add_twice_same_id_raises_duplicate_key twoJohnScope 0 1
    { id := "user1", name := "John", cars := [] } { id := "user1", name := "Johnny", cars := [] }
    johnModel johnnyModel (by decide) (by decide) (by decide) (by decide) (by decide) (by decide)
  exact ⟨by decide, by decide, by decide, by decide, by decide, h.1, h.2.1⟩

/-- When the store query finds a row for `k` but the identity map has no entry,
`UserRepository.get` maps the row to a fresh entity, records it in the map and
returns it. -/
lemma userRepository_get_fresh (s : ScopeState) (k : String) (r : UserRow)
    (hf : s.session.findUser k = some r)
    (hm : s.imap k = none) :
    ∃ ref cs, (UserRepository.get k s).1 = some ref ∧
      ((UserRepository.get k s).2).heap.users ref = some { id := r.id, name := r.name, cars := cs } := by
  have hid : r.id = k := findUser_id hf
  have hgm : s.session.getUserModel k = some
      { id := r.id, name := r.name,
        cars := ((s.session.db.cars ++ s.session.newCars).filter
          (fun c => c.user_id == some r.id)).map (fun c => { id := c.id, brand := c.brand }) } := by
    simp [Session.getUserModel, hf]
  simp only [UserRepository.get, hgm, user_model_to_entity_users_self, hid, hm]
  have hus := user_model_to_entity_users_self s.heap
    { id := k, name := r.name,
      cars := ((s.session.db.cars ++ s.session.newCars).filter
        (fun c => c.user_id == some k)).map (fun c => { id := c.id, brand := c.brand }) }
  exact ⟨_, _, rfl, hus⟩

/-- Counterexample to C2 as stated: after `users.add(x)` followed by
`rollback()` (no explicit `commit()`), a new scope's `get(x.id)` does NOT
return nothing — it returns the persisted entity, because `add` commits
internally, so the rollback has nothing left to undo. -/
theorem add_rollback_new_scope_get_counterexample :
    (rollbackScenario johnWorld 0 "user1").1 = some 1 ∧
    (rollbackScenario johnWorld 0 "user1").1 ≠ none := by
  exact ⟨by decide, by decide⟩

/-- C2 amended: after `users.add(x)` followed by `rollback()` with no explicit
`commit()` in one scope, a subsequently opened scope's `get(x.id)` returns the
entity (with `x`'s identifier and name) rather than nothing: `add` commits
immediately by itself, so the write is already persisted and the rollback —
both the explicit one and the one at scope exit — has nothing to discard. -/
theorem add_rollback_new_scope_get_returns_entity
    (w : World) (uref : URef) (u : UserObj) (m : UserModel)
    (h1 : w.heap.users uref = some u)
    (h2 : user_entity_to_model w.heap uref = some m)
    (h3 : canCommit ((beginScope w).session.addUserModel m) = true)
    (h4 : ∀ r ∈ w.db.users, r.id ≠ u.id) :
    ∃ ref obj, (rollbackScenario w uref u.id).1 = some ref ∧
      ((rollbackScenario w uref u.id).2).heap.users ref = some obj ∧
      obj.id = u.id ∧ obj.name = u.name := by
  obtain ⟨hid, hname, hcf⟩ := user_entity_to_model_fields h1 h2
  have key := userRepository_add_ok (beginScope w) uref u m h1 h2 h3
  have hw2 : rollbackScenario w uref u.id = UserRepository.get u.id (beginScope
      { heap := w.heap,
        db := { users := w.db.users ++ [({ id := m.id, name := m.name } : UserRow)],
                cars := w.db.cars ++ m.cars.map (fun c => ({ id := c.id, brand := c.brand, user_id := some m.id } : CarRow)) } }) := by
    simp only [rollbackScenario, key, MainUnitOfWork.rollback, Session.rollback, exitScope,
      Session.close]
    simp [beginScope]
  have hfind : (beginScope
      { heap := w.heap,
        db := { users := w.db.users ++ [({ id := m.id, name := m.name } : UserRow)],
                cars := w.db.cars ++ m.cars.map (fun c => ({ id := c.id, brand := c.brand, user_id := some m.id } : CarRow)) } } : ScopeState).session.findUser u.id
      = some { id := m.id, name := m.name } := by
    simp only [beginScope, Session.findUser, findUserRow]
    rw [findUserRow_append_of_none h4]
    simp [findUserRow, hid]
  have hfresh := userRepository_get_fresh _ u.id { id := m.id, name := m.name } hfind rfl
  obtain ⟨ref, cs, e1, e2⟩ := hfresh
  refine ⟨ref, { id := m.id, name := m.name, cars := cs }, ?_, ?_, hid, hname⟩
  · rw [hw2]; exact e1
  · rw [hw2]; exact e2

/-- Witness for the amended C2: the concrete `John` scenario; the new scope's
`get` returns the freshly loaded entity at reference 1 with `John`'s fields. -/
theorem add_rollback_new_scope_get_returns_entity_witness :
    johnWorld.heap.users 0 = some { id := "user1", name := "John", cars := [] } ∧
    user_entity_to_model johnWorld.heap 0 = some johnModel ∧
    canCommit ((beginScope johnWorld).session.addUserModel johnModel) = true ∧
    (∀ r ∈ johnWorld.db.users, r.id ≠ "user1") ∧
    ∃ ref obj, (rollbackScenario johnWorld 0 "user1").1 = some ref ∧
      ((rollbackScenario johnWorld 0 "user1").2).heap.users ref = some obj ∧
      obj.id = "user1" ∧ obj.name = "John" := by
  have h := add_rollback_new_scope_get_returns_entity johnWorld 0
    { id := "user1", name := "John", cars := [] } johnModel
    (by decide) (by decide) (by decide) (by decide)
  exact ⟨by decide, by decide, by decide, by decide, h⟩

lemma car_model_to_entity_none {h : EntHeap} {cm : CarModel}
    (hu : cm.user = none) : car_model_to_entity h cm = .error .attributeError := by
  simp [car_model_to_entity, hu]

lemma carEntitiesOf_error : ∀ (ms : List CarModel) (h : EntHeap),
    (∃ m ∈ ms, m.user = none) → carEntitiesOf h ms = .error .attributeError := by
  intro ms
  induction ms with
  | nil => intro h hmem; simp at hmem
  | cons m rest ih =>
      intro h hmem
      cases hu : m.user with
      | none => simp [carEntitiesOf, car_model_to_entity_none hu]
      | some up =>
          have hex : ∃ m2 ∈ rest, m2.user = none := by
            obtain ⟨m2, hm2, hu2⟩ := hmem
            rcases List.mem_cons.mp hm2 with hh | hh
            · exact absurd (hh ▸ hu2) (by simp [hu])
            · exact ⟨m2, hh, hu2⟩
          simp only [carEntitiesOf, car_model_to_entity, hu]
          rw [ih _ hex]

lemma findCar_mem {s : Session} {k : String} {r : CarRow}
    (h : s.findCar k = some r) : r ∈ s.db.cars ++ s.newCars := by
  unfold Session.findCar at h
  cases hn : findCarRow s.newCars k with
  | some r2 =>
      rw [hn] at h
      cases h
      exact List.mem_append_right _ (findCarRow_mem hn)
  | none =>
      rw [hn] at h
      exact List.mem_append_left _ (findCarRow_mem h)

/-- C10: a stored Car record whose foreign key is null crashes both
`cars.get` and `cars.list`: `car_model_to_entity` dereferences the absent
owner unconditionally, so instead of returning the Car (or one of the three
designed error kinds) the calls fail with the unhandled null-dereference
`AttributeError`. -/
theorem orphan_car_record_crashes_get_and_list
    (s : ScopeState) (k : String) (row : CarRow)
    (h1 : s.session.findCar k = some row)
    (h2 : row.user_id = none) :
    (CarRepository.get k s).1 = .error .attributeError ∧
    (CarRepository.list s).1 = .error .attributeError := by
  have hgm : s.session.getCarModel k = some { id := row.id, brand := row.brand, user := none } := by
    simp [Session.getCarModel, h1, h2]
  have hget : (CarRepository.get k s).1 = .error .attributeError := by
    have hmap : car_model_to_entity s.heap { id := row.id, brand := row.brand, user := none }
        = .error .attributeError := car_model_to_entity_none rfl
    simp [CarRepository.get, hgm, hmap]
  have hmem : row ∈ s.session.db.cars ++ s.session.newCars := findCar_mem h1
  have hex : ∃ m ∈ s.session.allCarModels, m.user = none := by
    refine ⟨_, List.mem_map_of_mem _ hmem, ?_⟩
    simp [h2]
  have hlist : (CarRepository.list s).1 = .error .attributeError := by
    simp [CarRepository.list, carEntitiesOf_error _ _ hex]
  exact ⟨hget, hlist⟩

/-- Witness for C10: getting or listing the orphan car row crashes. -/
theorem orphan_car_record_crashes_get_and_list_witness :
    orphanRowScope.session.findCar "car1" = some { id := "car1", brand := "Audi", user_id := none } ∧
    ({ id := "car1", brand := "Audi", user_id := none } : CarRow).user_id = none ∧
    (CarRepository.get "car1" orphanRowScope).1 = .error .attributeError ∧
    (CarRepository.list orphanRowScope).1 = .error .attributeError := by
  have h := orphan_car_record_crashes_get_and_list orphanRowScope "car1"
    { id := "car1", brand := "Audi", user_id := none } (by decide) (by decide)
  exact ⟨by decide, by decide, h.1, h.2⟩

lemma user_model_to_entity_fst (h : EntHeap) (m : UserModel) :
    (user_model_to_entity h m).1 = h.nextU := rfl

/-- C5: for a valid User entity with a non-empty car collection,
`user_entity_to_model` followed by `user_model_to_entity` yields a User entity
equal to the original in identifier and name, whose cars carry the same
identifier/brand pairs (in order, hence as a set), and every reconstructed
car's owner reference is the reconstructed User instance itself. -/
theorem mapper_round_trip
    (h : EntHeap) (uref : URef) (u : UserObj) (m : UserModel)
    (h1 : h.users uref = some u)
    (h2 : user_entity_to_model h uref = some m)
    (h3 : u.cars ≠ []) :
    ∃ u2, ((user_model_to_entity h m).2).users (user_model_to_entity h m).1 = some u2 ∧
      u2.id = u.id ∧ u2.name = u.name ∧
      u2.cars.map (fun r => (((user_model_to_entity h m).2).cars r).map (fun c => (c.id, c.brand)))
        = u.cars.map (fun r => ((h.cars r).map (fun c => (c.id, c.brand)))) ∧
      (∀ r ∈ u2.cars, ∃ c, ((user_model_to_entity h m).2).cars r = some c ∧
        c.user = some (user_model_to_entity h m).1) := by
  obtain ⟨hid, hname, hcf⟩ := user_entity_to_model_fields h1 h2
  have hsnap : ((allocCarList ((h.allocUser { id := m.id, name := m.name, cars := [] }).2) h.nextU m.cars).1).map
        (fun r => ((allocCarList ((h.allocUser { id := m.id, name := m.name, cars := [] }).2) h.nextU m.cars).2.cars r).map
          (fun c => (c.id, c.brand)))
      = m.cars.map (fun c => some (c.id, c.brand)) := by
    have hl := allocCarList_lookup_list m.cars ((h.allocUser { id := m.id, name := m.name, cars := [] }).2) h.nextU
    calc ((allocCarList ((h.allocUser { id := m.id, name := m.name, cars := [] }).2) h.nextU m.cars).1).map
          (fun r => ((allocCarList ((h.allocUser { id := m.id, name := m.name, cars := [] }).2) h.nextU m.cars).2.cars r).map
            (fun c => (c.id, c.brand)))
        = (((allocCarList ((h.allocUser { id := m.id, name := m.name, cars := [] }).2) h.nextU m.cars).1).map
            (fun r => (allocCarList ((h.allocUser { id := m.id, name := m.name, cars := [] }).2) h.nextU m.cars).2.cars r)).map
            (Option.map (fun c => (c.id, c.brand))) := by
          rw [List.map_map]; rfl
      _ = (m.cars.map (fun c => some ({ id := c.id, brand := c.brand, user := some h.nextU } : CarObj))).map
            (Option.map (fun c : CarObj => (c.id, c.brand))) := by rw [hl]
      _ = m.cars.map (fun c : CarModelChild => some (c.id, c.brand)) := by simp
  refine ⟨{ id := m.id, name := m.name,
            cars := (allocCarList ((h.allocUser { id := m.id, name := m.name, cars := [] }).2) h.nextU m.cars).1 },
          user_model_to_entity_users_self h m, hid, hname, ?_, ?_⟩
  · dsimp only
    rw [user_model_to_entity_cars, hsnap, carFields_snapshot hcf]
  · intro r hr
    obtain ⟨c, _, hc⟩ := allocCarList_mem m.cars
      ((h.allocUser { id := m.id, name := m.name, cars := [] }).2) h.nextU r hr
    refine ⟨{ id := c.id, brand := c.brand, user := some h.nextU }, ?_, ?_⟩
    · rw [user_model_to_entity_cars]; exact hc
    · rw [user_model_to_entity_fst]

/-- Witness for C5: the round trip on `John` with one `Audi`. -/
theorem mapper_round_trip_witness :
    johnWithCarHeap.users 0 = some { id := "user1", name := "John", cars := [0] } ∧
    user_entity_to_model johnWithCarHeap 0 = some johnCarModel ∧
    ({ id := "user1", name := "John", cars := [0] } : UserObj).cars ≠ [] ∧
    ∃ u2, ((user_model_to_entity johnWithCarHeap johnCarModel).2).users
        (user_model_to_entity johnWithCarHeap johnCarModel).1 = some u2 ∧
      u2.id = "user1" ∧ u2.name = "John" ∧
      u2.cars.map (fun r => (((user_model_to_entity johnWithCarHeap johnCarModel).2).cars r).map (fun c => (c.id, c.brand)))
        = [some ("car1", "Audi")] ∧
      (∀ r ∈ u2.cars, ∃ c, ((user_model_to_entity johnWithCarHeap johnCarModel).2).cars r = some c ∧
        c.user = some (user_model_to_entity johnWithCarHeap johnCarModel).1) := by
  have h := mapper_round_trip johnWithCarHeap 0 { id := "user1", name := "John", cars := [0] }
    johnCarModel (by decide) (by decide) (by decide)
  obtain ⟨u2, ha, hb, hc, hd, he⟩ := h
  exact ⟨by decide, by decide, by decide, u2, ha, hb, hc, by rw [hd]; decide, he⟩
